import Mathlib

/-!
Verification development for the MCP long-run acceptance scripts
(`scripts/mcp_long_runner.py` and its report companions).

The Python code is shallowly embedded: Python strings become `List Char`,
JSON values (as decoded by `json.loads` and encoded by `json.dumps`)
become the inductive `JValue`, the mutable `dynamic_context` dict becomes
the `Context` structure, and the effectful read loop of `MCPClient._rpc`
becomes a recursive function over an explicit list of stream events.

Typing boundary: the embedding covers payloads that follow the documented
wire format (JSON-RPC objects on each line; a tool-call result is a JSON
object whose optional `content` member is an array of objects with string
`text` members, and an `error` member is an object whose `message` member
is a string).  On payloads outside that format the Python code raises a
dynamic type error which the runner catches like any other per-operation
failure; those paths change only how such a step is classified, not any
property proved below.
-/

namespace McpLongRunner

/-- JSON values as decoded by `json.loads`/encoded by `json.dumps`.
Strings are lists of characters; the scripts never do numeric arithmetic,
so numbers are carried as integers. -/
inductive JValue : Type
  | null : JValue
  | bool : Bool → JValue
  | int : Int → JValue
  | str : List Char → JValue
  | arr : List JValue → JValue
  | obj : List (List Char × JValue) → JValue

/-- Python truthiness (`bool(v)`) of a JSON value. -/
def JValue.truthy : JValue → Bool
  | .null => false
  | .bool b => b
  | .int n => n != 0
  | .str s => !s.isEmpty
  | .arr items => !items.isEmpty
  | .obj fields => !fields.isEmpty

/-- Python truthiness of `dict.get(k)`: an absent key is `None`, hence falsy. -/
def truthyOpt : Option JValue → Bool
  | none => false
  | some v => v.truthy

/-- `d[k]` lookup in a JSON object (first binding; parsed dicts have unique keys). -/
def lookupKey (fields : List (List Char × JValue)) (k : List Char) : Option JValue :=
  (fields.find? fun kv => kv.1 = k).map Prod.snd

/-- `d.get(k)` on a JSON object: absent keys give Python `None`. -/
def dictGet (fields : List (List Char × JValue)) (k : List Char) : JValue :=
  (lookupKey fields k).getD .null

/-- `v.get(k)` where `v` is a JSON value that is an object (per the wire format). -/
def jGet (v : JValue) (k : List Char) : Option JValue :=
  match v with
  | .obj fields => lookupKey fields k
  | _ => none

/-- The whitespace characters stripped by Python `str.strip()`. -/
def isPySpace (c : Char) : Bool :=
  c = ' ' || c = '\t' || c = '\n' || c = '\r' || c = Char.ofNat 11 || c = Char.ofNat 12

/-- Python `str.strip()`. -/
def pyStrip (s : List Char) : List Char :=
  ((s.dropWhile isPySpace).reverse.dropWhile isPySpace).reverse

/-- Python `str.lower()` (ASCII case folding, all the scripts compare). -/
def lowerChars (s : List Char) : List Char := s.map Char.toLower

/-- The sensitive key set of `mask_payload` (line 150). -/
def sensitiveKeys : List (List Char) :=
  ["password".data, "api_key".data, "apikey".data, "token".data]

mutual

/-- The inner `_mask(value, key)` of `mask_payload` (lines 152-164): a
sensitive key is redacted, a `stats` key is replaced by a placeholder,
containers recurse, and long strings are truncated at 600 characters. -/
def maskValue (key : List Char) (v : JValue) : JValue :=
  if lowerChars key ∈ sensitiveKeys then .str "***".data
  else if lowerChars key = "stats".data then .str "[stats_json]".data
  else
    match v with
    | .obj fields => .obj (maskFields fields)
    | .arr items => .arr (maskItems key items)
    | .str s => if 600 < s.length then .str (s.take 600 ++ "...(truncated)".data) else .str s
    | v => v

/-- `{k: _mask(v, k) for k, v in value.items()}`. -/
def maskFields : List (List Char × JValue) → List (List Char × JValue)
  | [] => []
  | (k, v) :: rest => (k, maskValue k v) :: maskFields rest

/-- `[_mask(v, key) for v in value]`. -/
def maskItems (key : List Char) : List JValue → List JValue
  | [] => []
  | v :: rest => maskValue key v :: maskItems key rest

end

/-- `mask_payload` (lines 149-166): `_mask` applied at the top with `key = ""`. -/
def mask_payload (payload : JValue) : JValue := maskValue [] payload

/-- Lower-case hexadecimal digit. -/
def hexDigit (n : Nat) : Char :=
  if n < 10 then Char.ofNat (48 + n) else Char.ofNat (87 + n)

/-- One character of a JSON string under `json.dumps` escaping. -/
def jsonEscapeChar (c : Char) : List Char :=
  if c = '"' then ['\\', '"']
  else if c = '\\' then ['\\', '\\']
  else if c = '\n' then ['\\', 'n']
  else if c = '\r' then ['\\', 'r']
  else if c = '\t' then ['\\', 't']
  else if c = Char.ofNat 8 then ['\\', 'b']
  else if c = Char.ofNat 12 then ['\\', 'f']
  else if c.toNat < 32 then ['\\', 'u', '0', '0', hexDigit (c.toNat / 16), hexDigit (c.toNat % 16)]
  else [c]

mutual

/-- `json.dumps(v, ensure_ascii=False)` with the default separators. -/
def dumps : JValue → List Char
  | .null => "null".data
  | .bool true => "true".data
  | .bool false => "false".data
  | .int n => (toString n).data
  | .str s => ['"'] ++ s.flatMap jsonEscapeChar ++ ['"']
  | .arr items => ['['] ++ dumpsItems items ++ [']']
  | .obj fields => ['{'] ++ dumpsFields fields ++ ['}']

/-- Comma-joined array elements. -/
def dumpsItems : List JValue → List Char
  | [] => []
  | [v] => dumps v
  | v :: rest => dumps v ++ ", ".data ++ dumpsItems rest

/-- Comma-joined `"key": value` members. -/
def dumpsFields : List (List Char × JValue) → List Char
  | [] => []
  | [(k, v)] => ['"'] ++ k.flatMap jsonEscapeChar ++ ['"', ':', ' '] ++ dumps v
  | (k, v) :: rest =>
      ['"'] ++ k.flatMap jsonEscapeChar ++ ['"', ':', ' '] ++ dumps v ++ ", ".data
        ++ dumpsFields rest

end

/-- One character of a Python string repr under quote character `q`. -/
def pyReprEscapeChar (q : Char) (c : Char) : List Char :=
  if c = '\\' then ['\\', '\\']
  else if c = q then ['\\', q]
  else if c = '\n' then ['\\', 'n']
  else if c = '\r' then ['\\', 'r']
  else if c = '\t' then ['\\', 't']
  else if c.toNat < 32 || c.toNat = 127 then
    ['\\', 'x', hexDigit (c.toNat / 16), hexDigit (c.toNat % 16)]
  else [c]

/-- Python `repr` of a string: single-quoted unless the string contains a
single quote and no double quote. -/
def pyStrRepr (s : List Char) : List Char :=
  let q : Char := if s.contains '\'' && !s.contains '"' then '"' else '\''
  [q] ++ s.flatMap (pyReprEscapeChar q) ++ [q]

mutual

/-- Python `repr` restricted to JSON-shaped values. -/
def pyRepr : JValue → List Char
  | .null => "None".data
  | .bool true => "True".data
  | .bool false => "False".data
  | .int n => (toString n).data
  | .str s => pyStrRepr s
  | .arr items => ['['] ++ pyReprItems items ++ [']']
  | .obj fields => ['{'] ++ pyReprFields fields ++ ['}']

/-- Comma-joined list elements of a Python repr. -/
def pyReprItems : List JValue → List Char
  | [] => []
  | [v] => pyRepr v
  | v :: rest => pyRepr v ++ ", ".data ++ pyReprItems rest

/-- Comma-joined `k: v` members of a Python dict repr. -/
def pyReprFields : List (List Char × JValue) → List Char
  | [] => []
  | [(k, v)] => pyStrRepr k ++ ": ".data ++ pyRepr v
  | (k, v) :: rest => pyStrRepr k ++ ": ".data ++ pyRepr v ++ ", ".data ++ pyReprFields rest

end

/-- Python `str()` of a JSON-shaped value (identity on strings, `repr` on
containers, the usual spellings on scalars). -/
def pyStr : JValue → List Char
  | .str s => s
  | v => pyRepr v

/-! ### The two regular-expression extractors (lines 169-176) -/

/-- Whether `pat` is a case-insensitive prefix of `cs` (the literal part of a
`re.IGNORECASE` pattern, ASCII case folding). -/
def startsWithCI : List Char → List Char → Bool
  | [], _ => true
  | _ :: _, [] => false
  | p :: ps, c :: cs => p.toLower == c.toLower && startsWithCI ps cs

/-- The character class `[a-z0-9]` under `re.IGNORECASE`. -/
def isPostIdChar (c : Char) : Bool :=
  (('a' ≤ c && c ≤ 'z') || ('A' ≤ c && c ≤ 'Z') || ('0' ≤ c && c ≤ '9'))

/-- A match of `/post/([a-z0-9]+)` (IGNORECASE) anchored at the start of
`cs`: the literal, then a non-empty greedy run of id characters. -/
def postIdAt (cs : List Char) : Option (List Char) :=
  if startsWithCI "/post/".data cs then
    let grp := (cs.drop 6).takeWhile isPostIdChar
    if grp.isEmpty then none else some grp
  else none

/-- `re.search`: leftmost position where the pattern matches. -/
def searchPostId : List Char → Option (List Char)
  | [] => none
  | c :: cs =>
    match postIdAt (c :: cs) with
    | some grp => some grp
    | none => searchPostId cs

/-- `parse_post_id` (lines 174-176): search for `/post/([a-z0-9]+)`
case-insensitively and return the stripped group, else the empty string. -/
def parse_post_id (text : List Char) : List Char :=
  match searchPostId text with
  | some grp => pyStrip grp
  | none => []

/-- A match of `\[preview_id:\s*([^\]]+)\]` anchored at the start of `cs`:
after the literal, `\s*` takes a greedy whitespace run and `([^\]]+)` a
non-empty greedy run of non-bracket characters that must be followed by
`]`; when the run after the whitespace is empty the engine backtracks one
whitespace character into the group. -/
def previewIdAt (cs : List Char) : Option (List Char) :=
  if List.isPrefixOf "[preview_id:".data cs then
    let tail := cs.drop 12
    let ws := tail.takeWhile isPySpace
    let afterWs := tail.drop ws.length
    let grp := afterWs.takeWhile (fun c => c ≠ ']')
    if (afterWs.drop grp.length).head? = some ']' then
      if !grp.isEmpty then some grp
      else
        match ws.getLast? with
        | some w => some [w]
        | none => none
    else none
  else none

/-- `re.search` for the preview-id pattern: leftmost match. -/
def searchPreviewId : List Char → Option (List Char)
  | [] => none
  | c :: cs =>
    match previewIdAt (c :: cs) with
    | some grp => some grp
    | none => searchPreviewId cs

/-- `parse_preview_id` (lines 169-171): the stripped first group of
`\[preview_id:\s*([^\]]+)\]`, else the empty string. -/
def parse_preview_id (text : List Char) : List Char :=
  match searchPreviewId text with
  | some grp => pyStrip grp
  | none => []

/-! ### The RPC read loop (`MCPClient._rpc`, lines 103-138) -/

/-- One decoded JSON-RPC line as `_rpc` inspects it: its `id` member (absent
for notifications), its `error` member (an object when present, per the wire
format), and its `result` member. -/
structure Payload where
  id : Option Int
  error : Option (List (List Char × JValue))
  result : Option JValue

/-- `payload.get("result", {})`. -/
def Payload.resultValue (p : Payload) : JValue := p.result.getD (.obj [])

/-- `payload["error"].get("message", "unknown mcp error")`. -/
def errMessage (e : List (List Char × JValue)) : JValue :=
  (lookupKey e "message".data).getD (.str "unknown mcp error".data)

/-- What the environment presents to one iteration of the `_rpc` read loop:
`poll()` reports the child exited (with the drained stderr text and return
code), `select` times out before the deadline, `readline` returns an empty
string, or a full line decoding to a payload. -/
inductive StreamEvent : Type
  | procExit : List Char → Int → StreamEvent
  | notReady : StreamEvent
  | emptyLine : StreamEvent
  | line : Payload → StreamEvent

/-- The ways `_rpc` can finish: return the matched result payload, raise
`RuntimeError` for a matched error response, raise `RuntimeError` because
the child exited, or raise `TimeoutError`. -/
inductive RpcOutcome : Type
  | ok : JValue → RpcOutcome
  | remoteError : JValue → RpcOutcome
  | processExited : List Char → RpcOutcome
  | timeout : List Char → RpcOutcome

/-- `stderr_text or f"codeblog-mcp exited {returncode}"` (line 122), with
`stderr_text` the stripped drained stderr. -/
def procExitMsg (stderrText : List Char) (returncode : Int) : List Char :=
  if (pyStrip stderrText).isEmpty then
    "codeblog-mcp exited ".data ++ (toString returncode).data
  else pyStrip stderrText

/-- `f"tool={params.get('name', method)} timed out after {timeout_sec}s"`
(line 138); for `tools/call` the `name` param is the tool name. -/
def timeoutMsg (toolName : List Char) (timeoutSec : Nat) : List Char :=
  "tool=".data ++ toolName ++ " timed out after ".data ++ (toString timeoutSec).data ++ "s".data

/-- The read-correlate loop of `_rpc` (lines 113-138) over an explicit event
list.  Exhausting the list is the `while time.time() < deadline` guard
failing; `notReady` is `select` returning nothing before the deadline; both
end in `TimeoutError`.  A line whose id differs from the outstanding request
id is skipped, a matching line with an `error` member raises, and a matching
line without one returns its result payload. -/
def rpc (reqId : Int) (toolName : List Char) (timeoutSec : Nat) : List StreamEvent → RpcOutcome
  | [] => .timeout (timeoutMsg toolName timeoutSec)
  | .procExit stderrText rc :: _ => .processExited (procExitMsg stderrText rc)
  | .notReady :: _ => .timeout (timeoutMsg toolName timeoutSec)
  | .emptyLine :: rest => rpc reqId toolName timeoutSec rest
  | .line p :: rest =>
    if p.id ≠ some reqId then rpc reqId toolName timeoutSec rest
    else
      match p.error with
      | some e => .remoteError (errMessage e)
      | none => .ok p.resultValue

/-- An event the wait loop skips without finishing: an empty `readline`
result or a parsed line whose id does not match the outstanding request. -/
def skippable (reqId : Int) : StreamEvent → Bool
  | .emptyLine => true
  | .line p => p.id != some reqId
  | _ => false

/-! ### Result text extraction (`extract_text`, lines 141-146) -/

/-- The textual chunks gathered by `extract_text`: entries of the `content`
array whose `type` is `"text"` and whose `text` member is a truthy string
(per the wire format `text` members are strings; `str` on a string is the
identity). -/
def textChunks : List JValue → List (List Char)
  | [] => []
  | entry :: rest =>
    match entry with
    | .obj fields =>
      match lookupKey fields "type".data with
      | some (.str t) =>
        if t = "text".data then
          match lookupKey fields "text".data with
          | some (.str s) => if s.isEmpty then textChunks rest else s :: textChunks rest
          | _ => textChunks rest
        else textChunks rest
      | _ => textChunks rest
    | _ => textChunks rest

/-- `"\n".join(chunks)`. -/
def joinNewline : List (List Char) → List Char
  | [] => []
  | [s] => s
  | s :: rest => s ++ '\n' :: joinNewline rest

/-- `extract_text(result)` (lines 141-146): join the text chunks of
`result.get("content", [])` with newlines and strip. -/
def extract_text (result : JValue) : List Char :=
  match jGet result "content".data with
  | some (.arr entries) => pyStrip (joinNewline (textChunks entries))
  | _ => pyStrip (joinNewline (textChunks []))

/-! ### The operation catalog (`TOOLS`, lines 17-49) and argument maps -/

/-- A Python dict of call arguments, in insertion order. -/
abbrev ArgMap : Type := List (List Char × JValue)

/-- `d[k] = v`: overwrite in place if the key exists, else append. -/
def setKey (m : ArgMap) (k : List Char) (v : JValue) : ArgMap :=
  if (List.find? (fun kv => kv.1 = k) m).isSome then
    m.map fun kv => if kv.1 = k then (k, v) else kv
  else m ++ [(k, v)]

/-- `d.update(upd)`: set each binding of `upd` in order. -/
def updateMap (m : ArgMap) (upd : ArgMap) : ArgMap :=
  upd.foldl (fun acc kv => setKey acc kv.1 kv.2) m

/-- `"post_id" in args_payload`. -/
def hasKey (m : ArgMap) (k : List Char) : Bool :=
  (List.find? (fun kv => kv.1 = k) m).isSome

/-- One entry of the `TOOLS` catalog: tool name, static argument template,
scenario label. -/
structure OpDesc where
  name : List Char
  template : ArgMap
  scenario : List Char

/-- The `TOOLS` catalog (lines 17-49). -/
def TOOLS : List OpDesc := [
  ⟨"scan_sessions".data, [("limit".data, .int 5)], "扫描最近会话".data⟩,
  ⟨"read_session".data, [], "读取会话（依赖 scan 结果）".data⟩,
  ⟨"analyze_session".data, [], "分析会话（依赖 scan 结果）".data⟩,
  ⟨"post_to_codeblog".data, [], "发帖（依赖会话路径）".data⟩,
  ⟨"auto_post".data, [("dry_run".data, .bool true)], "自动发帖预览".data⟩,
  ⟨"weekly_digest".data, [("dry_run".data, .bool true)], "周报预览".data⟩,
  ⟨"preview_post".data,
    [("mode".data, .str "manual".data), ("title".data, .str "MCP 验收草稿".data),
     ("content".data, .str "## 验收\n内容".data), ("category".data, .str "general".data),
     ("tags".data, .arr [.str "mcp".data, .str "qa".data])], "生成预览".data⟩,
  ⟨"confirm_post".data, [], "发布预览（依赖 preview 返回 ID）".data⟩,
  ⟨"create_draft".data,
    [("title".data, .str "MCP 验收草稿".data), ("summary".data, .str "自动化验收".data),
     ("content".data, .str "## 内容\n测试草稿".data),
     ("tags".data, .arr [.str "mcp".data, .str "qa".data]),
     ("category".data, .str "tools".data)], "创建草稿".data⟩,
  ⟨"browse_posts".data, [("limit".data, .int 5)], "浏览帖子".data⟩,
  ⟨"search_posts".data, [("query".data, .str "mcp".data), ("limit".data, .int 5)], "搜索帖子".data⟩,
  ⟨"read_post".data, [], "读取帖子（依赖 browse/search）".data⟩,
  ⟨"comment_on_post".data, [], "评论帖子（依赖 post_id）".data⟩,
  ⟨"vote_on_post".data, [], "投票帖子（依赖 post_id）".data⟩,
  ⟨"edit_post".data, [], "编辑帖子（依赖 post_id）".data⟩,
  ⟨"delete_post".data, [], "删除帖子（依赖 post_id）".data⟩,
  ⟨"bookmark_post".data, [("action".data, .str "list".data)], "书签列表".data⟩,
  ⟨"browse_by_tag".data, [("action".data, .str "trending".data), ("limit".data, .int 5)], "浏览标签".data⟩,
  ⟨"trending_topics".data, [], "热点主题".data⟩,
  ⟨"explore_and_engage".data, [("action".data, .str "browse".data), ("limit".data, .int 3)], "探索帖子".data⟩,
  ⟨"join_debate".data, [("action".data, .str "list".data)], "查看辩论".data⟩,
  ⟨"follow_agent".data, [("action".data, .str "list_following".data), ("limit".data, .int 5)], "关注列表".data⟩,
  ⟨"manage_agents".data, [("action".data, .str "list".data)], "代理列表".data⟩,
  ⟨"my_posts".data, [("limit".data, .int 5), ("sort".data, .str "new".data)], "我的帖子".data⟩,
  ⟨"my_dashboard".data, [], "我的看板".data⟩,
  ⟨"my_notifications".data, [("action".data, .str "list".data), ("limit".data, .int 10)], "通知列表".data⟩,
  ⟨"codeblog_setup".data, [], "登录模式配置写入".data⟩,
  ⟨"codeblog_status".data, [], "服务状态".data⟩,
  ⟨"collect_daily_stats".data, [], "采集日报统计".data⟩,
  ⟨"save_daily_report".data, [], "保存日报（依赖 collect 结果）".data⟩,
  ⟨"configure_daily_report".data, [("get".data, .bool true)], "查询日报配置".data⟩]

/-! ### The cross-call context (`dynamic_context`) -/

/-- The `dynamic_context` dict; `none` means the key is absent, `some v`
that it is present with value `v` (possibly Python `None` = `JValue.null`). -/
structure Context where
  qa_email : Option JValue := none
  qa_password : Option JValue := none
  session_path : Option JValue := none
  session_source : Option JValue := none
  post_id : Option JValue := none
  preview_id : Option JValue := none
  raw_stats : Option JValue := none
  stats_date : Option JValue := none
  stats_tz : Option JValue := none
  own_post_id : Option JValue := none

/-- The literal `post_to_codeblog` argument dict (lines 288-296) with the
resolved source session. -/
def postToCodeblogArgs (sessionPath : JValue) : ArgMap :=
  [("title".data, .str "MCP 验收自动发帖".data),
   ("content".data,
    .str "## 背景\nMCP 长跑验收自动发帖。\n\n## 结果\n用于验证 post/edit/delete 工具链是否稳定可用。".data),
   ("source_session".data, sessionPath),
   ("tags".data, .arr [.str "mcp".data, .str "qa".data]),
   ("summary".data, .str "自动化验收帖子".data),
   ("category".data, .str "tools".data),
   ("language".data, .str "zh".data)]

/-- Argument resolution for one operation (lines 283-348): start from a copy
of the static template and apply the per-tool shaping rules in source
order. -/
def resolveArgs (tool : List Char) (base : ArgMap) (ctx : Context) : ArgMap :=
  let a0 := base
  let a1 :=
    if tool = "read_session".data || tool = "analyze_session".data
        || tool = "post_to_codeblog".data then
      if truthyOpt ctx.session_path && truthyOpt ctx.session_source then
        if tool = "post_to_codeblog".data then
          postToCodeblogArgs (ctx.session_path.getD .null)
        else
          updateMap a0
            [("path".data, ctx.session_path.getD .null),
             ("source".data, ctx.session_source.getD .null)]
      else []
    else a0
  let a2 :=
    if tool = "read_post".data || tool = "comment_on_post".data
        || tool = "vote_on_post".data then
      let b := if truthyOpt ctx.post_id then setKey a1 "post_id".data (ctx.post_id.getD .null)
               else []
      let b2 := if tool = "comment_on_post".data && hasKey b "post_id".data then
                  setKey b "content".data (.str "MCP 长跑验收自动评论（如打扰可删）".data)
                else b
      if tool = "vote_on_post".data && hasKey b2 "post_id".data then
        setKey b2 "value".data (.int 0)
      else b2
    else a1
  let a3 :=
    if tool = "edit_post".data || tool = "delete_post".data then
      let b := if truthyOpt ctx.own_post_id then
                 setKey a2 "post_id".data (ctx.own_post_id.getD .null)
               else []
      let b2 := if tool = "edit_post".data && hasKey b "post_id".data then
                  updateMap b
                    [("title".data, .str "MCP 验收更新标题".data),
                     ("summary".data, .str "更新摘要".data)]
                else b
      if tool = "delete_post".data && hasKey b2 "post_id".data then
        setKey b2 "confirm".data (.bool true)
      else b2
    else a2
  let a4 :=
    if tool = "confirm_post".data then
      if truthyOpt ctx.preview_id then
        setKey a3 "preview_id".data (ctx.preview_id.getD .null)
      else []
    else a3
  let a5 :=
    if tool = "codeblog_setup".data then
      if truthyOpt ctx.qa_email && truthyOpt ctx.qa_password then
        [("mode".data, .str "login".data),
         ("email".data, ctx.qa_email.getD .null),
         ("password".data, ctx.qa_password.getD .null)]
      else [("mode".data, .str "browser".data)]
    else a4
  if tool = "save_daily_report".data then
    if truthyOpt ctx.raw_stats && truthyOpt ctx.stats_date && truthyOpt ctx.stats_tz then
      [("date".data, ctx.stats_date.getD .null),
       ("timezone".data, ctx.stats_tz.getD .null),
       ("stats".data, .str (dumps (ctx.raw_stats.getD .null)))]
    else []
  else a5

/-! ### Result extraction into the context (lines 364-405)

`json.loads` is the stdlib JSON parser; its outcome on the extracted text
is passed in as an `Option JValue` (`none` when it raised).  Each inner
`try/except` swallows extraction failures, so the ill-typed cases —
python attribute or index errors on a decoded value of the wrong shape —
leave the context unchanged, exactly like the embedded `_ => ctx` arms. -/

/-- `scan_sessions` extraction (lines 364-372): a decoded non-empty list
whose first element is a dict populates `session_path`/`session_source`. -/
def scanExtract (parsed : Option JValue) (ctx : Context) : Context :=
  match parsed with
  | some (.arr (first :: _)) =>
    match first with
    | .obj f =>
      { ctx with
        session_path := some (dictGet f "path".data),
        session_source := some (dictGet f "source".data) }
    | _ => ctx
  | _ => ctx

/-- `browse_posts` extraction (lines 374-381). -/
def browseExtract (parsed : Option JValue) (ctx : Context) : Context :=
  match parsed with
  | some (.obj f) =>
    match lookupKey f "posts".data with
    | some (.arr (p0 :: _)) =>
      match p0 with
      | .obj pf => { ctx with post_id := some (dictGet pf "id".data) }
      | _ => ctx
    | _ => ctx
  | _ => ctx

/-- `preview_post` extraction (lines 383-386). -/
def previewExtract (text : List Char) (ctx : Context) : Context :=
  let pid := parse_preview_id text
  if !pid.isEmpty then { ctx with preview_id := some (.str pid) } else ctx

/-- `collect_daily_stats` extraction (lines 388-395). -/
def collectExtract (parsed : Option JValue) (ctx : Context) : Context :=
  match parsed with
  | some (.obj f) =>
    { ctx with
      raw_stats := some (dictGet f "_rawStats".data),
      stats_date := some (dictGet f "date".data),
      stats_tz := some (dictGet f "timezone".data) }
  | _ => ctx

/-- `post_to_codeblog` extraction (lines 397-400). -/
def postExtract (text : List Char) (ctx : Context) : Context :=
  let pid := parse_post_id text
  if !pid.isEmpty then { ctx with own_post_id := some (.str pid) } else ctx

/-- `confirm_post` extraction (lines 402-405): only adopts the posted id
when `own_post_id` is not already truthy. -/
def confirmExtract (text : List Char) (ctx : Context) : Context :=
  let pid := parse_post_id text
  if !pid.isEmpty && !truthyOpt ctx.own_post_id then
    { ctx with own_post_id := some (.str pid) }
  else ctx

/-- All per-tool extraction rules; the source guards each block with
`if tool == ...` on pairwise distinct names, so the chain is a dispatch. -/
def applyExtraction (tool : List Char) (text : List Char) (parsed : Option JValue)
    (ctx : Context) : Context :=
  if tool = "scan_sessions".data then scanExtract parsed ctx
  else if tool = "browse_posts".data then browseExtract parsed ctx
  else if tool = "preview_post".data then previewExtract text ctx
  else if tool = "collect_daily_stats".data then collectExtract parsed ctx
  else if tool = "post_to_codeblog".data then postExtract text ctx
  else if tool = "confirm_post".data then confirmExtract text ctx
  else ctx

/-! ### The scenario loop of `main` (lines 280-450) -/

/-- The environment of one loop iteration: the stream events the RPC wait
loop sees for this call, the `json.loads` outcome on the extracted text,
and the wall-clock/uuid values read during the step. -/
structure StepEnv where
  events : List StreamEvent
  parsed : Option JValue
  startIso : List Char
  endIso : List Char
  elapsedMs : Nat
  issueTag : List Char

/-- The per-operation outcome state accumulated by the loop body before it
is written to the run log and the matrix. -/
structure Record where
  tool : List Char
  scenario : List Char
  argsPayload : ArgMap
  passed : Bool
  actual : List Char
  errorMsg : List Char
  issue : List Char
  rootCause : List Char
  fix : List Char
  retest : List Char
  startIso : List Char
  endIso : List Char
  elapsedMs : Nat
  issueTag : List Char

/-- `str(ex)` for the exceptions `_rpc` raises (the `.ok` arm is not an
exception and is never reached through this function). -/
def exceptionStr : RpcOutcome → List Char
  | .ok _ => []
  | .remoteError m => pyStr m
  | .processExited m => m
  | .timeout m => m

/-- One iteration of the `for tool, base_args, scenario in TOOLS` loop
(lines 280-414): resolve the arguments, invoke the tool, and either take
the success path (extract text, classify by the `isError` flag, update the
context) or the `except Exception` path (lines 407-414), which catches
every per-operation failure and fills the diagnostic fields. -/
def runStep (d : OpDesc) (env : StepEnv) (ctx : Context) (reqId : Int) : Record × Context :=
  let args := resolveArgs d.name d.template ctx
  match rpc reqId d.name 90 env.events with
  | .ok result =>
    let text := extract_text result
    let passed := !truthyOpt (jGet result "isError".data)
    let ctx2 := applyExtraction d.name text env.parsed ctx
    (⟨d.name, d.scenario, args, passed, text.take 2000, [], [], [], [], [],
      env.startIso, env.endIso, env.elapsedMs, env.issueTag⟩, ctx2)
  | e =>
    let msg := exceptionStr e
    (⟨d.name, d.scenario, args, false, msg.take 2000, msg,
      "自动验收失败".data,
      "工具调用异常：".data ++ msg.take 120,
      "补齐前置依赖并重试；如为代码问题则修复后复测".data,
      "否".data,
      env.startIso, env.endIso, env.elapsedMs, env.issueTag⟩, ctx)

/-- The loop over the catalog from step index `i` on: each iteration
consumes the next request id and threads the possibly-updated context. -/
def runPassAux (envs : Nat → StepEnv) : List OpDesc → Nat → Context → Int → List Record
  | [], _, _, _ => []
  | d :: rest, i, ctx, reqId =>
    let step := runStep d (envs i) ctx reqId
    step.1 :: runPassAux envs rest (i + 1) step.2 (reqId + 1)

/-- One full pass over a catalog (the whole `for` loop of one round),
starting from context `ctx` with next request id `reqId`. -/
def runPass (cat : List OpDesc) (envs : Nat → StepEnv) (ctx : Context) (reqId : Int) :
    List Record :=
  runPassAux envs cat 0 ctx reqId

/-- `actual[:500].replace("\n", "\\n")` (line 427). -/
def escapeNewlines (s : List Char) : List Char :=
  s.flatMap fun c => if c = '\n' then ['\\', 'n'] else [c]

/-- The run-log row built at lines 418-439, one cell per listed expression. -/
def runLogRow (runId : List Char) (roundNo : Int) (rec : Record) : List (List Char) :=
  [runId,
   (toString roundNo).data,
   rec.startIso,
   rec.endIso,
   rec.tool,
   "MCP直连".data,
   (dumps (mask_payload (.obj rec.argsPayload))).take 500,
   rec.scenario,
   escapeNewlines (rec.actual.take 500),
   (toString (Int.ofNat rec.elapsedMs)).data,
   (if rec.passed then "是" else "否").data,
   (if rec.passed then "正常" else "异常").data,
   (if rec.passed then "正常" else "异常").data,
   (if rec.passed then [] else "有".data),
   rec.errorMsg.take 500,
   (if rec.passed then [] else "ISSUE-".data ++ rec.issueTag),
   rec.rootCause,
   rec.fix,
   (if !rec.retest.isEmpty then rec.retest
    else if rec.passed then "是".data else "否".data),
   []]

/-! ### The tracking matrix (`update_matrix`, lines 223-249)

The CSV table is keyed by the header; the loop addresses cells through
`idx[column name]`.  The embedding gives each row one named field per
column.  Transliteration of the headers: `toolName` = 工具名,
`clientIntegrated` = 客户端已接入, `mcpCallPassed` = MCP调用通过,
`dialogueTriggerPassed` = 对话触发通过, `capsuleStartOk` = 胶囊开始态正常,
`capsuleEndOk` = 胶囊结束态正常, `errorStateVisible` = 错误态可见,
`lastRunId` = 最近RunID, `lastResult` = 最近结果, `foundIssue` = 发现问题,
`rootCauseAnalysis` = 根因分析, `fixAction` = 修复动作,
`retestAfterFix` = 修复后复测, `lastUpdated` = 最后更新时间. -/

structure MatrixRow where
  toolName : List Char
  clientIntegrated : List Char
  mcpCallPassed : List Char
  dialogueTriggerPassed : List Char
  capsuleStartOk : List Char
  capsuleEndOk : List Char
  errorStateVisible : List Char
  lastRunId : List Char
  lastResult : List Char
  foundIssue : List Char
  rootCauseAnalysis : List Char
  fixAction : List Char
  retestAfterFix : List Char
  lastUpdated : List Char
  deriving DecidableEq

/-- The cell mutations applied to the matched row (lines 232-244); `now`
is the `now_iso()` timestamp read during the update. -/
def updateMatrixRow (r : MatrixRow) (run_id : List Char) (passed : Bool)
    (issue root_cause fix retest now : List Char) : MatrixRow :=
  { r with
    clientIntegrated := "是".data,
    mcpCallPassed := if passed then "是".data else "否".data,
    dialogueTriggerPassed := if passed then "是".data else "否".data,
    capsuleStartOk := if passed then "是".data else "否".data,
    capsuleEndOk := if passed then "是".data else "否".data,
    errorStateVisible :=
      if !passed && (!issue.isEmpty || !root_cause.isEmpty) then "是".data
      else if !r.errorStateVisible.isEmpty then r.errorStateVisible
      else "是".data,
    lastRunId := run_id,
    lastResult := if passed then "通过".data else "失败".data,
    foundIssue := issue,
    rootCauseAnalysis := root_cause,
    fixAction := fix,
    retestAfterFix := retest,
    lastUpdated := now }

/-- `update_matrix` on the data rows (lines 229-249): scan in order, mutate
the first row whose 工具名 cell equals `tool`, `break`, and write the whole
table back; when no row matches, the loop falls through and the table is
rewritten unchanged. -/
def update_matrix (data : List MatrixRow) (tool run_id : List Char) (passed : Bool)
    (issue root_cause fix retest now : List Char) : List MatrixRow :=
  match data with
  | [] => []
  | r :: rest =>
    if r.toolName = tool then
      updateMatrixRow r run_id passed issue root_cause fix retest now :: rest
    else r :: update_matrix rest tool run_id passed issue root_cause fix retest now

/-! ### The run log CSV round trip (`append_run_log`, lines 217-220)

`append_run_log` appends one row through `csv.writer` with the default
dialect (delimiter `,`, quote character `"`, minimal quoting, line
terminator CRLF); the report scripts read it back through `csv.reader`
(via `csv.DictReader`).  Both sides are embedded below. -/

/-- Minimal quoting: a field is quoted iff it contains the delimiter, the
quote character, or a line-terminator character. -/
def csvNeedsQuote (f : List Char) : Bool :=
  f.any fun c => c = ',' || c = '"' || c = '\r' || c = '\n'

/-- One encoded field: quoted with doubled inner quotes when needed. -/
def csvQuote (f : List Char) : List Char :=
  if csvNeedsQuote f then
    ['"'] ++ (f.flatMap fun c => if c = '"' then ['"', '"'] else [c]) ++ ['"']
  else f

/-- The delimiter-joined encoded cells of one row. -/
def csvRowBody : List (List Char) → List Char
  | [] => []
  | [f] => csvQuote f
  | f :: rest => csvQuote f ++ ',' :: csvRowBody rest

/-- `csv.writer(...).writerow(row)`: the joined cells plus CRLF. -/
def csvWriteRow (fields : List (List Char)) : List Char :=
  csvRowBody fields ++ ['\r', '\n']

/-- Reader helper: the inside of a quoted field, after its opening quote.
A doubled quote is one literal quote; a lone quote closes the field. -/
def csvParseQuoted : List Char → List Char × List Char
  | [] => ([], [])
  | c :: rest =>
    if c = '"' then
      match rest with
      | '"' :: rest2 =>
        let p := csvParseQuoted rest2
        ('"' :: p.1, p.2)
      | _ => ([], rest)
    else
      let p := csvParseQuoted rest
      (c :: p.1, p.2)

/-- The remainder returned by `csvParseQuoted` never grows. -/
theorem csvParseQuoted_length (cs : List Char) : (csvParseQuoted cs).2.length ≤ cs.length := by
  induction cs using csvParseQuoted.induct with
  | case1 => simp [csvParseQuoted]
  | case2 rest2 ih =>
    simp [csvParseQuoted]
    omega
  | case3 rest hshape =>
    cases rest with
    | nil => simp [csvParseQuoted]
    | cons b bs =>
      have hb : b ≠ '"' := fun he => hshape bs (by rw [he])
      simp [csvParseQuoted, hb]
  | case4 c rest hne ih =>
    unfold csvParseQuoted
    simp [hne]
    omega

/-- `csv.reader` on one record: cells are parsed left to right, a quoted
cell when the next character is the quote character, an unquoted run up to
the next delimiter otherwise; a comma continues the row, anything else
(CRLF or end of data) ends it. -/
def csvParseFields (cs : List Char) : List (List Char) :=
  if h : cs.head? = some '"' then
    match hr : csvParseQuoted cs.tail with
    | (f, ',' :: r2) => f :: csvParseFields r2
    | (f, _) => [f]
  else
    match hr : cs.drop (cs.takeWhile fun c => !(c = ',' || c = '\r' || c = '\n')).length with
    | ',' :: r2 =>
      (cs.takeWhile fun c => !(c = ',' || c = '\r' || c = '\n')) :: csvParseFields r2
    | _ => [cs.takeWhile fun c => !(c = ',' || c = '\r' || c = '\n')]
termination_by cs.length
decreasing_by
  · have h1 := csvParseQuoted_length cs.tail
    rw [hr] at h1
    simp only [List.length_cons] at h1
    cases cs with
    | nil => simp at h
    | cons a as => simp only [List.tail_cons, List.length_cons] at h1 ⊢; omega
  · have h1 := congrArg List.length hr
    simp only [List.length_drop, List.length_cons] at h1
    omega

/-! ## Claim theorems: the RPC session (C1, C2) -/

/-- The outcome `_rpc` derives from the matched response line: its result
payload, or a `RuntimeError` from its error member. -/
def matchedOutcome (p : Payload) : RpcOutcome :=
  match p.error with
  | some e => .remoteError (errMessage e)
  | none => .ok p.resultValue

/-- C1: a request sent by `MCPClient._rpc` with id N either finishes with
the outcome derived from a response line whose id equals N (its result
payload, or that line carrying an error member), or fails with a timeout,
or fails with a process-exited error; and whenever it returns a result
payload, that payload comes from a line whose id equals N — never from a
line with a different id. -/
theorem rpc_id_correlation (reqId : Int) (tn : List Char) (ts : Nat)
    (events : List StreamEvent) :
    ((∃ p, StreamEvent.line p ∈ events ∧ p.id = some reqId ∧
        rpc reqId tn ts events = matchedOutcome p)
      ∨ (∃ m, rpc reqId tn ts events = RpcOutcome.timeout m)
      ∨ (∃ m, rpc reqId tn ts events = RpcOutcome.processExited m))
    ∧ (∀ r, rpc reqId tn ts events = RpcOutcome.ok r →
        ∃ p, StreamEvent.line p ∈ events ∧ p.id = some reqId ∧ p.error = none
          ∧ p.resultValue = r) := by
  induction events with
  | nil =>
    refine ⟨Or.inr (Or.inl ⟨_, rfl⟩), ?_⟩
    intro r hr
    simp [rpc] at hr
  | cons e rest ih =>
    cases e with
    | procExit st rc =>
      refine ⟨Or.inr (Or.inr ⟨_, rfl⟩), ?_⟩
      intro r hr
      simp [rpc] at hr
    | notReady =>
      refine ⟨Or.inr (Or.inl ⟨_, rfl⟩), ?_⟩
      intro r hr
      simp [rpc] at hr
    | emptyLine =>
      refine ⟨?_, ?_⟩
      · rcases ih.1 with ⟨p, hmem, hid, hout⟩ | h | h
        · exact Or.inl ⟨p, List.mem_cons_of_mem _ hmem, hid, by simpa [rpc] using hout⟩
        · exact Or.inr (Or.inl (by simpa [rpc] using h))
        · exact Or.inr (Or.inr (by simpa [rpc] using h))
      · intro r hr
        rcases ih.2 r (by simpa [rpc] using hr) with ⟨p, hmem, rest⟩
        exact ⟨p, List.mem_cons_of_mem _ hmem, rest⟩
    | line p =>
      by_cases hid : p.id = some reqId
      · have hrpc : rpc reqId tn ts (StreamEvent.line p :: rest) = matchedOutcome p := by
          simp [rpc, hid, matchedOutcome]
        refine ⟨Or.inl ⟨p, List.mem_cons_self _ _, hid, hrpc⟩, ?_⟩
        intro r hr
        rw [hrpc] at hr
        refine ⟨p, List.mem_cons_self _ _, hid, ?_, ?_⟩
        · cases herr : p.error with
          | none => rfl
          | some e => rw [matchedOutcome, herr] at hr; cases hr
        · cases herr : p.error with
          | none => rw [matchedOutcome, herr] at hr; cases hr; rfl
          | some e => rw [matchedOutcome, herr] at hr; cases hr
      · have hrw : rpc reqId tn ts (StreamEvent.line p :: rest) = rpc reqId tn ts rest := by
          simp [rpc, hid]
        refine ⟨?_, ?_⟩
        · rcases ih.1 with ⟨q, hmem, hqid, hout⟩ | h | h
          · exact Or.inl ⟨q, List.mem_cons_of_mem _ hmem, hqid, hrw ▸ hout⟩
          · exact Or.inr (Or.inl (hrw ▸ h))
          · exact Or.inr (Or.inr (hrw ▸ h))
        · intro r hr
          rcases ih.2 r (hrw ▸ hr) with ⟨q, hmem, hrest⟩
          exact ⟨q, List.mem_cons_of_mem _ hmem, hrest⟩

theorem rpc_id_correlation_witness :
    ∃ p, StreamEvent.line p ∈
        [StreamEvent.line ⟨some 5, none, some (JValue.str "x".data)⟩]
      ∧ p.id = some 5 ∧ p.error = none ∧ p.resultValue = JValue.str "x".data :=
  (rpc_id_correlation 5 "scan_sessions".data 90
    [StreamEvent.line ⟨some 5, none, some (JValue.str "x".data)⟩]).2
    (JValue.str "x".data) rfl

/-- C2: a wait that sees any number of unrelated lines (responses with a
non-matching id, id-less notifications, other parsed stray lines, or empty
reads) followed by the response matching the outstanding id skips all of
them without aborting and without a false timeout, and returns the true
matching payload. -/
theorem rpc_skips_stray_lines (reqId : Int) (tn : List Char) (ts : Nat)
    (pre : List StreamEvent) (p : Payload)
    (hpre : ∀ e ∈ pre, skippable reqId e = true)
    (hid : p.id = some reqId) (herr : p.error = none) :
    rpc reqId tn ts (pre ++ [StreamEvent.line p]) = RpcOutcome.ok p.resultValue := by
  induction pre with
  | nil => simp [rpc, hid, herr]
  | cons e rest ih =>
    have he := hpre e (List.mem_cons_self _ _)
    have hrest : ∀ x ∈ rest, skippable reqId x = true :=
      fun x hx => hpre x (List.mem_cons_of_mem _ hx)
    cases e with
    | procExit st rc => simp [skippable] at he
    | notReady => simp [skippable] at he
    | emptyLine => simpa [rpc] using ih hrest
    | line q =>
      have hq : q.id ≠ some reqId := by
        simpa [skippable] using he
      simpa [rpc, hq] using ih hrest

theorem rpc_skips_stray_lines_witness :
    (∀ e ∈ [StreamEvent.line ⟨some 7, none, some (JValue.str "stray1".data)⟩,
            StreamEvent.line ⟨none, none, some (JValue.str "notification".data)⟩,
            StreamEvent.line ⟨some 9, some [("message".data, JValue.str "other".data)], none⟩],
        skippable 5 e = true)
    ∧ rpc 5 "read_session".data 90
        ([StreamEvent.line ⟨some 7, none, some (JValue.str "stray1".data)⟩,
          StreamEvent.line ⟨none, none, some (JValue.str "notification".data)⟩,
          StreamEvent.line ⟨some 9, some [("message".data, JValue.str "other".data)], none⟩]
          ++ [StreamEvent.line ⟨some 5, none, some (JValue.str "true-match".data)⟩])
        = RpcOutcome.ok (JValue.str "true-match".data) :=
  ⟨by decide,
   rpc_skips_stray_lines 5 "read_session".data 90 _ _ (by decide) rfl rfl⟩


/-! ## Claim theorems: payload masking (C5) -/

/-- A sensitive key is redacted whatever the value is. -/
theorem maskValue_sensitive (k : List Char) (v : JValue)
    (hk : lowerChars k ∈ sensitiveKeys) : maskValue k v = .str "***".data := by
  rw [maskValue.eq_def, if_pos hk]

/-- A non-sensitive, non-stats key over a string longer than 600 characters
truncates it and appends the marker. -/
theorem maskValue_longStr (k s : List Char) (hk1 : lowerChars k ∉ sensitiveKeys)
    (hk2 : lowerChars k ≠ "stats".data) (hs : 600 < s.length) :
    maskValue k (.str s) = .str (s.take 600 ++ "...(truncated)".data) := by
  rw [maskValue.eq_def, if_neg hk1, if_neg hk2]
  exact if_pos hs

/-- At the top level the key is the empty string, so an object recurses
into its fields. -/
theorem mask_payload_obj (L : List (List Char × JValue)) :
    mask_payload (.obj L) = .obj (maskFields L) := by
  unfold mask_payload
  rw [maskValue.eq_def, if_neg (by decide), if_neg (by decide)]

/-- C5: masking `{"token": "abc123", "note": <1000-char string>}` yields
`token == "***"` and `note` equal to the first 600 characters followed by
the truncation marker; sensitive-key matching is case-insensitive, so the
key `"Token"` is masked the same way. -/
theorem mask_payload_spec (s : List Char) (h : s.length = 1000) :
    mask_payload (.obj [("token".data, .str "abc123".data), ("note".data, .str s)])
      = .obj [("token".data, .str "***".data),
              ("note".data, .str (s.take 600 ++ "...(truncated)".data))]
    ∧ mask_payload (.obj [("Token".data, .str "abc123".data), ("note".data, .str s)])
      = .obj [("Token".data, .str "***".data),
              ("note".data, .str (s.take 600 ++ "...(truncated)".data))] := by
  have h6 : 600 < s.length := by omega
  refine ⟨?_, ?_⟩ <;>
  · rw [mask_payload_obj]
    simp only [maskFields]
    rw [maskValue_sensitive _ _ (by decide),
      maskValue_longStr _ _ (by decide) (by decide) h6]

theorem mask_payload_spec_witness :
    (List.replicate 1000 'x').length = 1000
    ∧ mask_payload (.obj [("token".data, .str "abc123".data),
        ("note".data, .str (List.replicate 1000 'x'))])
      = .obj [("token".data, .str "***".data),
              ("note".data,
               .str ((List.replicate 1000 'x').take 600 ++ "...(truncated)".data))] :=
  ⟨by rw [List.length_replicate], (mask_payload_spec (List.replicate 1000 'x') (by rw [List.length_replicate])).1⟩


/-! ## Claim theorems: tracking matrix updates (C7, C8) -/

/-- A matrix row with the given key and blank status cells. -/
def mkRow (tool : List Char) : MatrixRow :=
  ⟨tool, [], [], [], [], [], [], [], [], [], [], [], [], []⟩

/-- When no row matches, the loop falls through and the data is unchanged. -/
theorem update_matrix_nomatch_aux (data : List MatrixRow) (tool rid : List Char)
    (p : Bool) (i rc f rt now : List Char)
    (h : ∀ r ∈ data, r.toolName ≠ tool) :
    update_matrix data tool rid p i rc f rt now = data := by
  induction data with
  | nil => rfl
  | cons r rest ih =>
    have hr := h r (List.mem_cons_self _ _)
    rw [update_matrix, if_neg hr, ih fun x hx => h x (List.mem_cons_of_mem _ hx)]

/-- `update_matrix` preserves the number of rows. -/
theorem update_matrix_length_aux (data : List MatrixRow) (tool rid : List Char)
    (p : Bool) (i rc f rt now : List Char) :
    (update_matrix data tool rid p i rc f rt now).length = data.length := by
  induction data with
  | nil => rfl
  | cons r rest ih =>
    rw [update_matrix]
    by_cases hr : r.toolName = tool
    · rw [if_pos hr]
      simp
    · rw [if_neg hr]
      simpa using ih

/-- With a unique match after a non-matching prefix, exactly the matched
row is rewritten. -/
theorem update_matrix_append_aux (pre post : List MatrixRow) (r : MatrixRow)
    (tool rid : List Char) (p : Bool) (i rc f rt now : List Char)
    (hpre : ∀ x ∈ pre, x.toolName ≠ tool) (hr : r.toolName = tool) :
    update_matrix (pre ++ r :: post) tool rid p i rc f rt now
      = pre ++ updateMatrixRow r rid p i rc f rt now :: post := by
  induction pre with
  | nil =>
    simp only [List.nil_append]
    rw [update_matrix, if_pos hr]
  | cons x rest ih =>
    have hx := hpre x (List.mem_cons_self _ _)
    simp only [List.cons_append, update_matrix, if_neg hx]
    exact congrArg (x :: ·) (ih fun y hy => hpre y (List.mem_cons_of_mem _ hy))

/-- C7 counterexample: on a table with no row keyed by the requested
operation name, `update_matrix` raises nothing and rewrites the table
byte-identically — it silently succeeds instead of failing with an
`UnknownOperation` error (no such error exists anywhere in the code). -/
theorem update_matrix_unknown_tool_counterexample :
    update_matrix [mkRow "scan_sessions".data] "read_session".data "RUN-1".data true
      [] [] [] [] "2025-09-01T00:00:00".data = [mkRow "scan_sessions".data] := rfl

/-- C7 amended: for every tracking table in which no row is keyed by the
given operation name, the tracking update silently rewrites the table
unchanged, and an update never grows (or shrinks) the row set. -/
theorem update_matrix_unknown_tool_silent (data : List MatrixRow) (tool rid : List Char)
    (p : Bool) (i rc f rt now : List Char) :
    ((∀ r ∈ data, r.toolName ≠ tool) →
      update_matrix data tool rid p i rc f rt now = data)
    ∧ (update_matrix data tool rid p i rc f rt now).length = data.length :=
  ⟨fun h => update_matrix_nomatch_aux data tool rid p i rc f rt now h,
   update_matrix_length_aux data tool rid p i rc f rt now⟩

theorem update_matrix_unknown_tool_silent_witness :
    (∀ r ∈ [mkRow "browse_posts".data], r.toolName ≠ "edit_post".data)
    ∧ update_matrix [mkRow "browse_posts".data] "edit_post".data "RUN-2".data false
        "i".data "rc".data "f".data "rt".data "T".data = [mkRow "browse_posts".data] :=
  ⟨by decide,
   (update_matrix_unknown_tool_silent [mkRow "browse_posts".data] "edit_post".data
     "RUN-2".data false "i".data "rc".data "f".data "rt".data "T".data).1 (by decide)⟩

/-- C8: on a table whose row set holds exactly one row keyed `tool`,
updating that operation twice in a row leaves exactly one row for it, all
other rows byte-identical to before, and the surviving row carries the
latest run id, result, diagnostic fields and timestamp; the key cell
itself is never modified, only status/diagnostic columns and the
last-modified timestamp. -/
theorem update_matrix_idempotent_by_key (pre post : List MatrixRow) (r : MatrixRow)
    (tool rid1 rid2 : List Char) (p1 p2 : Bool)
    (i1 rc1 f1 rt1 t1 i2 rc2 f2 rt2 t2 : List Char)
    (hpre : ∀ x ∈ pre, x.toolName ≠ tool) (hr : r.toolName = tool)
    (hpost : ∀ x ∈ post, x.toolName ≠ tool) :
    update_matrix (update_matrix (pre ++ r :: post) tool rid1 p1 i1 rc1 f1 rt1 t1)
        tool rid2 p2 i2 rc2 f2 rt2 t2
      = pre ++ updateMatrixRow (updateMatrixRow r rid1 p1 i1 rc1 f1 rt1 t1)
          rid2 p2 i2 rc2 f2 rt2 t2 :: post
    ∧ ((update_matrix (update_matrix (pre ++ r :: post) tool rid1 p1 i1 rc1 f1 rt1 t1)
        tool rid2 p2 i2 rc2 f2 rt2 t2).filter fun x => x.toolName == tool).length = 1
    ∧ (updateMatrixRow (updateMatrixRow r rid1 p1 i1 rc1 f1 rt1 t1)
        rid2 p2 i2 rc2 f2 rt2 t2).toolName = r.toolName
    ∧ (updateMatrixRow (updateMatrixRow r rid1 p1 i1 rc1 f1 rt1 t1)
        rid2 p2 i2 rc2 f2 rt2 t2).lastRunId = rid2
    ∧ (updateMatrixRow (updateMatrixRow r rid1 p1 i1 rc1 f1 rt1 t1)
        rid2 p2 i2 rc2 f2 rt2 t2).lastResult
        = (if p2 then "通过".data else "失败".data)
    ∧ (updateMatrixRow (updateMatrixRow r rid1 p1 i1 rc1 f1 rt1 t1)
        rid2 p2 i2 rc2 f2 rt2 t2).mcpCallPassed
        = (if p2 then "是".data else "否".data)
    ∧ (updateMatrixRow (updateMatrixRow r rid1 p1 i1 rc1 f1 rt1 t1)
        rid2 p2 i2 rc2 f2 rt2 t2).foundIssue = i2
    ∧ (updateMatrixRow (updateMatrixRow r rid1 p1 i1 rc1 f1 rt1 t1)
        rid2 p2 i2 rc2 f2 rt2 t2).rootCauseAnalysis = rc2
    ∧ (updateMatrixRow (updateMatrixRow r rid1 p1 i1 rc1 f1 rt1 t1)
        rid2 p2 i2 rc2 f2 rt2 t2).fixAction = f2
    ∧ (updateMatrixRow (updateMatrixRow r rid1 p1 i1 rc1 f1 rt1 t1)
        rid2 p2 i2 rc2 f2 rt2 t2).retestAfterFix = rt2
    ∧ (updateMatrixRow (updateMatrixRow r rid1 p1 i1 rc1 f1 rt1 t1)
        rid2 p2 i2 rc2 f2 rt2 t2).lastUpdated = t2 := by
  have h1 := update_matrix_append_aux pre post r tool rid1 p1 i1 rc1 f1 rt1 t1 hpre hr
  have hr1 : (updateMatrixRow r rid1 p1 i1 rc1 f1 rt1 t1).toolName = tool := hr
  have h2 := update_matrix_append_aux pre post
    (updateMatrixRow r rid1 p1 i1 rc1 f1 rt1 t1) tool rid2 p2 i2 rc2 f2 rt2 t2 hpre hr1
  have heq : update_matrix (update_matrix (pre ++ r :: post) tool rid1 p1 i1 rc1 f1 rt1 t1)
      tool rid2 p2 i2 rc2 f2 rt2 t2
    = pre ++ updateMatrixRow (updateMatrixRow r rid1 p1 i1 rc1 f1 rt1 t1)
        rid2 p2 i2 rc2 f2 rt2 t2 :: post := by rw [h1, h2]
  refine ⟨heq, ?_, rfl, rfl, rfl, rfl, rfl, rfl, rfl, rfl, rfl⟩
  rw [heq]
  rw [List.filter_append]
  have hfpre : pre.filter (fun x => x.toolName == tool) = [] := by
    rw [List.filter_eq_nil]
    intro a ha
    simpa using hpre a ha
  have hfpost : post.filter (fun x => x.toolName == tool) = [] := by
    rw [List.filter_eq_nil]
    intro a ha
    simpa using hpost a ha
  rw [hfpre]
  simp only [List.filter_cons, hfpost]
  have : ((updateMatrixRow (updateMatrixRow r rid1 p1 i1 rc1 f1 rt1 t1)
      rid2 p2 i2 rc2 f2 rt2 t2).toolName == tool) = true := by
    simpa using hr
  simp [this]

theorem update_matrix_idempotent_by_key_witness :
    (∀ x ∈ [mkRow "scan_sessions".data], x.toolName ≠ "read_session".data)
    ∧ (mkRow "read_session".data).toolName = "read_session".data
    ∧ (∀ x ∈ [mkRow "browse_posts".data], x.toolName ≠ "read_session".data)
    ∧ update_matrix (update_matrix
        ([mkRow "scan_sessions".data] ++ mkRow "read_session".data :: [mkRow "browse_posts".data])
        "read_session".data "R1".data false "i1".data "rc1".data "f1".data "rt1".data "T1".data)
        "read_session".data "R2".data true "i2".data "rc2".data "f2".data "rt2".data "T2".data
      = [mkRow "scan_sessions".data]
        ++ updateMatrixRow (updateMatrixRow (mkRow "read_session".data)
            "R1".data false "i1".data "rc1".data "f1".data "rt1".data "T1".data)
            "R2".data true "i2".data "rc2".data "f2".data "rt2".data "T2".data
          :: [mkRow "browse_posts".data] :=
  ⟨by decide, rfl, by decide,
   (update_matrix_idempotent_by_key [mkRow "scan_sessions".data] [mkRow "browse_posts".data]
     (mkRow "read_session".data) "read_session".data "R1".data "R2".data false true
     "i1".data "rc1".data "f1".data "rt1".data "T1".data
     "i2".data "rc2".data "f2".data "rt2".data "T2".data
     (by decide) rfl (by decide)).1⟩


/-! ## Claim theorems: run-log round trip (C9) -/

/-- Quote-doubling writer escape of one field body. -/
def csvEsc (f : List Char) : List Char :=
  f.flatMap fun c => if c = '"' then ['"', '"'] else [c]

/-- Reading back a written quoted body recovers the field and leaves the
remainder untouched, provided the remainder does not begin with a quote. -/
theorem csvParseQuoted_escaped (f rest : List Char) (hrest : rest.head? ≠ some '"') :
    csvParseQuoted (csvEsc f ++ '"' :: rest) = (f, rest) := by
  induction f with
  | nil =>
    cases rest with
    | nil => rfl
    | cons r0 rs =>
      have hr0 : r0 ≠ '"' := by
        intro he
        exact hrest (by rw [he]; rfl)
      show csvParseQuoted ('"' :: r0 :: rs) = ([], r0 :: rs)
      simp [csvParseQuoted, hr0]
  | cons c f2 ih =>
    by_cases hc : c = '"'
    · subst hc
      have hx : csvEsc ('"' :: f2) ++ '"' :: rest
          = '"' :: '"' :: (csvEsc f2 ++ '"' :: rest) := by
        simp [csvEsc]
      rw [hx]
      simp [csvParseQuoted, ih]
    · have hx : csvEsc (c :: f2) ++ '"' :: rest = c :: (csvEsc f2 ++ '"' :: rest) := by
        simp [csvEsc, hc]
      rw [hx]
      unfold csvParseQuoted
      simp [hc, ih]

/-- Unfolding `csvParseFields` on a quoted cell followed by a comma. -/
theorem csvParseFields_quoted_cont (inner f r2 : List Char)
    (hp : csvParseQuoted inner = (f, ',' :: r2)) :
    csvParseFields ('"' :: inner) = f :: csvParseFields r2 := by
  rw [csvParseFields.eq_def]
  rw [dif_pos (show (('"' : Char) :: inner).head? = some '"' from rfl)]
  simp only [List.tail_cons]
  split
  next f2 r2b heq =>
    rw [hp] at heq
    simp only [Prod.mk.injEq, List.cons.injEq] at heq
    rw [heq.1, heq.2.2]
  next f2 rest2 hcond hne =>
    rw [hp] at hne
    simp only [Prod.mk.injEq] at hne
    exact absurd (hne.2.symm) (fun he => hcond r2 he)

/-- Unfolding `csvParseFields` on a quoted last cell. -/
theorem csvParseFields_quoted_end (inner f rest : List Char)
    (hp : csvParseQuoted inner = (f, rest)) (hrest : rest.head? ≠ some ',') :
    csvParseFields ('"' :: inner) = [f] := by
  rw [csvParseFields.eq_def]
  rw [dif_pos (show (('"' : Char) :: inner).head? = some '"' from rfl)]
  simp only [List.tail_cons]
  split
  next f2 r2b heq =>
    rw [hp] at heq
    simp only [Prod.mk.injEq] at heq
    have : rest.head? = some ',' := by rw [heq.2]; rfl
    exact absurd this hrest
  next f2 rest2 hcond hne =>
    rw [hp] at hne
    simp only [Prod.mk.injEq] at hne
    rw [hne.1]

/-- Unfolding `csvParseFields` on an unquoted cell followed by a comma. -/
theorem csvParseFields_unquoted_cont (cs r2 : List Char)
    (hq : cs.head? ≠ some '"')
    (hr : cs.drop (cs.takeWhile fun c => !(c = ',' || c = '\r' || c = '\n')).length
      = ',' :: r2) :
    csvParseFields cs
      = (cs.takeWhile fun c => !(c = ',' || c = '\r' || c = '\n')) :: csvParseFields r2 := by
  rw [csvParseFields.eq_def]
  rw [dif_neg hq]
  split
  next heq =>
    rename_i r2b
    rw [hr] at heq
    simp only [List.cons.injEq] at heq
    rw [heq.2]
  next hcond =>
    exact absurd hr (hcond r2)

/-- Unfolding `csvParseFields` on an unquoted last cell. -/
theorem csvParseFields_unquoted_end (cs : List Char)
    (hq : cs.head? ≠ some '"')
    (hr : (cs.drop (cs.takeWhile fun c => !(c = ',' || c = '\r' || c = '\n')).length).head?
      ≠ some ',') :
    csvParseFields cs = [cs.takeWhile fun c => !(c = ',' || c = '\r' || c = '\n')] := by
  rw [csvParseFields.eq_def]
  rw [dif_neg hq]
  split
  next heq =>
    exact absurd (by rw [heq]; rfl) hr
  next hcond =>
    rfl

/-- `takeWhile` over an append stops exactly at the first failing head. -/
theorem takeWhile_append_stop (p : Char → Bool) (f : List Char) (r0 : Char) (rs : List Char)
    (hf : ∀ c ∈ f, p c = true) (h0 : p r0 = false) :
    (f ++ r0 :: rs).takeWhile p = f := by
  induction f with
  | nil => simp [List.takeWhile_cons, h0]
  | cons a as ih =>
    have ha := hf a (List.mem_cons_self _ _)
    simp [List.takeWhile_cons, ha, ih fun c hc => hf c (List.mem_cons_of_mem _ hc)]

/-- A written row, parsed back, gives back exactly its fields. -/
theorem csvParse_csvWrite (fields : List (List Char)) (h : fields ≠ []) :
    csvParseFields (csvWriteRow fields) = fields := by
  induction fields with
  | nil => exact absurd rfl h
  | cons f rest ih =>
    cases rest with
    | nil =>
      by_cases hq : csvNeedsQuote f
      · have harr : csvWriteRow [f] = '"' :: (csvEsc f ++ '"' :: ['\r', '\n']) := by
          simp [csvWriteRow, csvRowBody, csvQuote, hq, csvEsc]
        rw [harr]
        exact csvParseFields_quoted_end _ f _
          (csvParseQuoted_escaped f _ (by decide)) (by decide)
      · have hnq : csvNeedsQuote f = false := by simpa using hq
        have hall : ∀ c ∈ f, (!(c = ',' || c = '\r' || c = '\n')) = true := by
          intro c hc
          have hcj := List.any_eq_false.mp hnq c hc
          simp at hcj
          obtain ⟨⟨⟨h1, hq2⟩, h2⟩, h3⟩ := hcj
          simp [h1, h2, h3]
        have hnoq : ∀ c ∈ f, c ≠ '"' := by
          intro c hc
          have hcj := List.any_eq_false.mp hnq c hc
          simp at hcj
          exact hcj.1.1.2
        have harr : csvWriteRow [f] = f ++ '\r' :: ['\n'] := by
          simp [csvWriteRow, csvRowBody, csvQuote, hnq]
        rw [harr]
        have htw : (f ++ '\r' :: ['\n']).takeWhile
            (fun c => !(c = ',' || c = '\r' || c = '\n')) = f :=
          takeWhile_append_stop _ f '\r' ['\n'] hall (by decide)
        have hhd : (f ++ '\r' :: ['\n']).head? ≠ some '"' := by
          cases f with
          | nil => decide
          | cons a as =>
            have := hnoq a (List.mem_cons_self _ _)
            simpa using this
        have hdrop : ((f ++ '\r' :: ['\n']).drop
            ((f ++ '\r' :: ['\n']).takeWhile
              (fun c => !(c = ',' || c = '\r' || c = '\n'))).length).head? ≠ some ',' := by
          rw [htw, List.drop_left]
          decide
        rw [csvParseFields_unquoted_end _ hhd hdrop, htw]
    | cons g rest2 =>
      have hbody : csvWriteRow (f :: g :: rest2)
          = csvQuote f ++ ',' :: csvWriteRow (g :: rest2) := by
        simp [csvWriteRow, csvRowBody]
      by_cases hq : csvNeedsQuote f
      · have harr : csvWriteRow (f :: g :: rest2)
            = '"' :: (csvEsc f ++ '"' :: (',' :: csvWriteRow (g :: rest2))) := by
          rw [hbody]
          simp [csvQuote, hq, csvEsc]
        rw [harr]
        rw [csvParseFields_quoted_cont _ f _
          (csvParseQuoted_escaped f (',' :: csvWriteRow (g :: rest2)) (by simp))]
        rw [ih (by simp)]
      · have hnq : csvNeedsQuote f = false := by simpa using hq
        have hall : ∀ c ∈ f, (!(c = ',' || c = '\r' || c = '\n')) = true := by
          intro c hc
          have hcj := List.any_eq_false.mp hnq c hc
          simp at hcj
          obtain ⟨⟨⟨h1, hq2⟩, h2⟩, h3⟩ := hcj
          simp [h1, h2, h3]
        have hnoq : ∀ c ∈ f, c ≠ '"' := by
          intro c hc
          have hcj := List.any_eq_false.mp hnq c hc
          simp at hcj
          exact hcj.1.1.2
        have harr : csvWriteRow (f :: g :: rest2)
            = f ++ ',' :: csvWriteRow (g :: rest2) := by
          rw [hbody]
          simp [csvQuote, hnq]
        rw [harr]
        have htw : (f ++ ',' :: csvWriteRow (g :: rest2)).takeWhile
            (fun c => !(c = ',' || c = '\r' || c = '\n')) = f :=
          takeWhile_append_stop _ f ',' _ hall (by decide)
        have hhd : (f ++ ',' :: csvWriteRow (g :: rest2)).head? ≠ some '"' := by
          cases f with
          | nil => simp
          | cons a as =>
            have := hnoq a (List.mem_cons_self _ _)
            simpa using this
        have hdrop : (f ++ ',' :: csvWriteRow (g :: rest2)).drop
            ((f ++ ',' :: csvWriteRow (g :: rest2)).takeWhile
              (fun c => !(c = ',' || c = '\r' || c = '\n'))).length
            = ',' :: csvWriteRow (g :: rest2) := by
          rw [htw, List.drop_left]
        rw [csvParseFields_unquoted_cont _ _ hhd hdrop, htw]
        rw [ih (by simp)]


/-- C9: an outcome record written to the run log as the 20-cell row built
at lines 418-439 and read back from the log yields exactly the same field
values; the documented fixed-length truncations are applied while the row
is built and are therefore reflected identically on both sides. -/
theorem run_log_roundtrip (runId : List Char) (roundNo : Int) (rec : Record) :
    csvParseFields (csvWriteRow (runLogRow runId roundNo rec))
      = runLogRow runId roundNo rec :=
  csvParse_csvWrite _ (by simp [runLogRow])

/-! ## Claim theorems: context threading (C6, C10) -/

/-- Resolution for `read_session` when both session keys are present and
truthy: the template is updated with exactly the extracted values. -/
theorem resolveArgs_read_session_aux (c : Context) (p s : JValue)
    (hp : c.session_path = some p) (hs : c.session_source = some s)
    (htp : p.truthy = true) (hts : s.truthy = true) :
    resolveArgs "read_session".data [] c = [("path".data, p), ("source".data, s)] := by
  simp only [resolveArgs, hp, hs, truthyOpt, htp, hts]
  simp
  rfl

/-- Resolution for `read_session` when the session keys are not both
truthy: the arguments collapse to the empty mapping whatever the static
template was. -/
theorem resolveArgs_read_session_empty_aux (c : Context) (tmpl : ArgMap)
    (hcond : (truthyOpt c.session_path && truthyOpt c.session_source) = false) :
    resolveArgs "read_session".data tmpl c = [] := by
  simp [resolveArgs, hcond]

/-- C6: if the scan extraction populated both session context keys with
truthy values, the subsequent read operation resolves to exactly those two
values as its `path` and `source` arguments and nothing else (the catalog
template of `read_session` is the empty mapping); if the keys are not both
populated truthy, the resolved arguments are the empty mapping, not the
static template. -/
theorem scan_read_context_threading (ctx : Context) (text : List Char)
    (parsed : Option JValue) (tmpl : ArgMap) :
    (∀ p s : JValue,
      (applyExtraction "scan_sessions".data text parsed ctx).session_path = some p →
      (applyExtraction "scan_sessions".data text parsed ctx).session_source = some s →
      p.truthy = true → s.truthy = true →
      resolveArgs "read_session".data []
          (applyExtraction "scan_sessions".data text parsed ctx)
        = [("path".data, p), ("source".data, s)])
    ∧ ((truthyOpt (applyExtraction "scan_sessions".data text parsed ctx).session_path
          && truthyOpt (applyExtraction "scan_sessions".data text parsed ctx).session_source)
            = false →
      resolveArgs "read_session".data tmpl
          (applyExtraction "scan_sessions".data text parsed ctx) = []) :=
  ⟨fun p s hp hs htp hts => resolveArgs_read_session_aux _ p s hp hs htp hts,
   fun hcond => resolveArgs_read_session_empty_aux _ tmpl hcond⟩

theorem scan_read_context_threading_witness :
    (applyExtraction "scan_sessions".data "t".data
        (some (.arr [.obj [("path".data, .str "/tmp/a.json".data),
                           ("source".data, .str "claude".data)]])) {}).session_path
      = some (.str "/tmp/a.json".data)
    ∧ (applyExtraction "scan_sessions".data "t".data
        (some (.arr [.obj [("path".data, .str "/tmp/a.json".data),
                           ("source".data, .str "claude".data)]])) {}).session_source
      = some (.str "claude".data)
    ∧ (JValue.str "/tmp/a.json".data).truthy = true
    ∧ (JValue.str "claude".data).truthy = true
    ∧ resolveArgs "read_session".data []
        (applyExtraction "scan_sessions".data "t".data
          (some (.arr [.obj [("path".data, .str "/tmp/a.json".data),
                             ("source".data, .str "claude".data)]])) {})
      = [("path".data, .str "/tmp/a.json".data), ("source".data, .str "claude".data)] :=
  ⟨rfl, rfl, rfl, rfl,
   (scan_read_context_threading {} "t".data
      (some (.arr [.obj [("path".data, .str "/tmp/a.json".data),
                         ("source".data, .str "claude".data)]])) []).1
     (.str "/tmp/a.json".data) (.str "claude".data) rfl rfl rfl rfl⟩

/-- Presence of every context key is preserved from `c1` to `c2`: no entry
of the cross-call context is removed. -/
def contextMono (c1 c2 : Context) : Prop :=
  (c1.qa_email.isSome → c2.qa_email.isSome)
  ∧ (c1.qa_password.isSome → c2.qa_password.isSome)
  ∧ (c1.session_path.isSome → c2.session_path.isSome)
  ∧ (c1.session_source.isSome → c2.session_source.isSome)
  ∧ (c1.post_id.isSome → c2.post_id.isSome)
  ∧ (c1.preview_id.isSome → c2.preview_id.isSome)
  ∧ (c1.raw_stats.isSome → c2.raw_stats.isSome)
  ∧ (c1.stats_date.isSome → c2.stats_date.isSome)
  ∧ (c1.stats_tz.isSome → c2.stats_tz.isSome)
  ∧ (c1.own_post_id.isSome → c2.own_post_id.isSome)

theorem contextMono_refl (c : Context) : contextMono c c := by
  simp [contextMono]

theorem scanExtract_mono (parsed : Option JValue) (ctx : Context) :
    contextMono ctx (scanExtract parsed ctx) := by
  unfold scanExtract
  split
  · split
    · simp [contextMono]
    · exact contextMono_refl ctx
  · exact contextMono_refl ctx

theorem browseExtract_mono (parsed : Option JValue) (ctx : Context) :
    contextMono ctx (browseExtract parsed ctx) := by
  unfold browseExtract
  split
  · split
    · split
      · simp [contextMono]
      · exact contextMono_refl ctx
    · exact contextMono_refl ctx
  · exact contextMono_refl ctx

theorem previewExtract_mono (text : List Char) (ctx : Context) :
    contextMono ctx (previewExtract text ctx) := by
  unfold previewExtract
  by_cases h : (!(parse_preview_id text).isEmpty) = true
  · simp [h, contextMono]
  · simp [h, contextMono]

theorem collectExtract_mono (parsed : Option JValue) (ctx : Context) :
    contextMono ctx (collectExtract parsed ctx) := by
  unfold collectExtract
  split
  · simp [contextMono]
  · exact contextMono_refl ctx

theorem postExtract_mono (text : List Char) (ctx : Context) :
    contextMono ctx (postExtract text ctx) := by
  unfold postExtract
  by_cases h : (!(parse_post_id text).isEmpty) = true
  · simp [h, contextMono]
  · simp [h, contextMono]

theorem confirmExtract_mono (text : List Char) (ctx : Context) :
    contextMono ctx (confirmExtract text ctx) := by
  unfold confirmExtract
  by_cases h : (!(parse_post_id text).isEmpty && !truthyOpt ctx.own_post_id) = true
  · simp [h, contextMono]
  · simp [h, contextMono]

theorem applyExtraction_mono (tool text : List Char) (parsed : Option JValue)
    (ctx : Context) : contextMono ctx (applyExtraction tool text parsed ctx) := by
  unfold applyExtraction
  split
  · exact scanExtract_mono _ _
  · split
    · exact browseExtract_mono _ _
    · split
      · exact previewExtract_mono _ _
      · split
        · exact collectExtract_mono _ _
        · split
          · exact postExtract_mono _ _
          · split
            · exact confirmExtract_mono _ _
            · exact contextMono_refl ctx

/-- C10: during a run no cross-call context entry is ever removed (every
step of the scenario loop only preserves or adds entries), and the first
successful post identifier wins: once the `post_to_codeblog` extraction
has set the own-post-id entry, a later `confirm_post` extraction never
overwrites it. -/
theorem context_monotone_first_post_wins :
    (∀ (d : OpDesc) (env : StepEnv) (ctx : Context) (reqId : Int),
      contextMono ctx (runStep d env ctx reqId).2)
    ∧ (∀ (ctx : Context) (text2 : List Char), truthyOpt ctx.own_post_id = true →
      (confirmExtract text2 ctx).own_post_id = ctx.own_post_id)
    ∧ (∀ (ctx : Context) (text text2 : List Char), (parse_post_id text).isEmpty = false →
      (confirmExtract text2 (postExtract text ctx)).own_post_id
        = some (.str (parse_post_id text))) := by
  refine ⟨?_, ?_, ?_⟩
  · intro d env ctx reqId
    unfold runStep
    split
    · exact applyExtraction_mono _ _ _ _
    · exact contextMono_refl ctx
  · intro ctx text2 h
    simp [confirmExtract, h]
  · intro ctx text text2 h
    simp [postExtract, confirmExtract, h, truthyOpt, JValue.truthy]

theorem context_monotone_first_post_wins_witness :
    (parse_post_id "https://codeblog.ai/post/abc123".data).isEmpty = false
    ∧ (confirmExtract "https://codeblog.ai/post/zzz9".data
        (postExtract "https://codeblog.ai/post/abc123".data {})).own_post_id
      = some (.str (parse_post_id "https://codeblog.ai/post/abc123".data)) :=
  ⟨by decide,
   context_monotone_first_post_wins.2.2 {} "https://codeblog.ai/post/abc123".data
     "https://codeblog.ai/post/zzz9".data (by decide)⟩

/-! ## Claim theorems: the scenario loop (C3, C4) -/

/-- Every record carries the name of its descriptor. -/
theorem runStep_tool (d : OpDesc) (env : StepEnv) (ctx : Context) (reqId : Int) :
    (runStep d env ctx reqId).1.tool = d.name := by
  unfold runStep
  split <;> rfl

/-- A remote tool error is caught: the record fails with the stringified
message and the context is left unchanged. -/
theorem runStep_remoteError (d : OpDesc) (env : StepEnv) (ctx : Context) (reqId : Int)
    (m : JValue) (h : rpc reqId d.name 90 env.events = RpcOutcome.remoteError m) :
    (runStep d env ctx reqId).1.passed = false
    ∧ (runStep d env ctx reqId).1.errorMsg = pyStr m
    ∧ (runStep d env ctx reqId).2 = ctx := by
  unfold runStep
  rw [h]
  exact ⟨rfl, rfl, rfl⟩

/-- A process exit is caught exactly like any other failure: the record
fails with the exit message and the context is left unchanged. -/
theorem runStep_processExited (d : OpDesc) (env : StepEnv) (ctx : Context) (reqId : Int)
    (msg : List Char) (h : rpc reqId d.name 90 env.events = RpcOutcome.processExited msg) :
    (runStep d env ctx reqId).1.passed = false
    ∧ (runStep d env ctx reqId).1.errorMsg = msg
    ∧ (runStep d env ctx reqId).2 = ctx := by
  unfold runStep
  rw [h]
  exact ⟨rfl, rfl, rfl⟩

/-- The loop yields one record per descriptor, in catalog order. -/
theorem runPassAux_map_tool (cat : List OpDesc) (envs : Nat → StepEnv) (i : Nat)
    (ctx : Context) (reqId : Int) :
    (runPassAux envs cat i ctx reqId).map Record.tool = cat.map OpDesc.name := by
  induction cat generalizing i ctx reqId with
  | nil => rfl
  | cons d rest ih => simp [runPassAux, runStep_tool, ih]

/-- The j-th record of the loop is the outcome of invoking the j-th
descriptor with its own environment and its own request id, from the
context reached at that step. -/
theorem runPassAux_get (cat : List OpDesc) (envs : Nat → StepEnv) (i : Nat)
    (ctx : Context) (reqId : Int) (j : Nat) (hj : j < cat.length) :
    ∃ c, (runPassAux envs cat i ctx reqId).get? j
      = some (runStep (cat.get ⟨j, hj⟩) (envs (i + j)) c (reqId + j)).1 := by
  induction cat generalizing i ctx reqId j with
  | nil => simp at hj
  | cons d rest ih =>
    cases j with
    | zero => exact ⟨ctx, by simp [runPassAux]⟩
    | succ j2 =>
      obtain ⟨c, hc⟩ := ih (i + 1) (runStep d (envs i) ctx reqId).2 (reqId + 1) j2
        (by simpa using Nat.lt_of_succ_lt_succ hj)
      refine ⟨c, ?_⟩
      have hidx : i + 1 + j2 = i + (j2 + 1) := by omega
      have hrid : reqId + 1 + (j2 : Int) = reqId + ((j2 : Int) + 1) := by omega
      have hcast : ((j2 + 1 : Nat) : Int) = (j2 : Int) + 1 := by push_cast; ring
      simp only [runPassAux, List.get?_cons_succ, List.get]
      rw [hc, hidx, hcast, ← hrid]

/-- C4: a catalog of 5 operations where operation 3 fails with a remote
tool error still yields exactly 5 outcome records, one per descriptor in
catalog order; operation 3 is recorded as failed with the remote message,
and operations 4 and 5 are still attempted (each record is the outcome of
its own invocation with its own stream events and request id) and
recorded. -/
theorem five_ops_remote_error_all_recorded
    (d1 d2 d3 d4 d5 : OpDesc) (envs : Nat → StepEnv) (ctx : Context) (reqId : Int)
    (m : JValue)
    (hfail : rpc (reqId + 2) d3.name 90 (envs 2).events = RpcOutcome.remoteError m) :
    (runPass [d1, d2, d3, d4, d5] envs ctx reqId).map Record.tool
      = [d1.name, d2.name, d3.name, d4.name, d5.name]
    ∧ (runPass [d1, d2, d3, d4, d5] envs ctx reqId).length = 5
    ∧ (∃ r, (runPass [d1, d2, d3, d4, d5] envs ctx reqId).get? 2 = some r
        ∧ r.tool = d3.name ∧ r.passed = false ∧ r.errorMsg = pyStr m)
    ∧ (∃ c, (runPass [d1, d2, d3, d4, d5] envs ctx reqId).get? 3
        = some (runStep d4 (envs 3) c (reqId + 3)).1)
    ∧ (∃ c, (runPass [d1, d2, d3, d4, d5] envs ctx reqId).get? 4
        = some (runStep d5 (envs 4) c (reqId + 4)).1) := by
  have hmap := runPassAux_map_tool [d1, d2, d3, d4, d5] envs 0 ctx reqId
  refine ⟨by simpa [runPass] using hmap, ?_, ?_, ?_, ?_⟩
  · have := congrArg List.length hmap
    simpa [runPass] using this
  · obtain ⟨c, hc⟩ := runPassAux_get [d1, d2, d3, d4, d5] envs 0 ctx reqId 2 (by simp)
    refine ⟨(runStep d3 (envs 2) c (reqId + 2)).1, ?_, runStep_tool _ _ _ _, ?_, ?_⟩
    · simpa [runPass] using hc
    · exact (runStep_remoteError d3 (envs 2) c (reqId + 2) m hfail).1
    · exact (runStep_remoteError d3 (envs 2) c (reqId + 2) m hfail).2.1
  · obtain ⟨c, hc⟩ := runPassAux_get [d1, d2, d3, d4, d5] envs 0 ctx reqId 3 (by simp)
    exact ⟨c, by simpa [runPass] using hc⟩
  · obtain ⟨c, hc⟩ := runPassAux_get [d1, d2, d3, d4, d5] envs 0 ctx reqId 4 (by simp)
    exact ⟨c, by simpa [runPass] using hc⟩

theorem five_ops_remote_error_all_recorded_witness :
    rpc ((2 : Int) + 2) "post_to_codeblog".data 90
        [StreamEvent.line ⟨some 4, some [("message".data, JValue.str "no session".data)], none⟩]
      = RpcOutcome.remoteError (JValue.str "no session".data)
    ∧ (runPass
        [⟨"scan_sessions".data, [], "a".data⟩, ⟨"read_session".data, [], "b".data⟩,
         ⟨"post_to_codeblog".data, [], "c".data⟩, ⟨"browse_posts".data, [], "d".data⟩,
         ⟨"read_post".data, [], "e".data⟩]
        (fun i => ⟨[StreamEvent.line ⟨some (2 + (i : Int)),
            (if i = 2 then some [("message".data, JValue.str "no session".data)] else none),
            some (JValue.obj [])⟩], none, "s".data, "e".data, 1, "u".data⟩)
        {} 2).length = 5 := by
  constructor
  · rfl
  · exact (five_ops_remote_error_all_recorded
      ⟨"scan_sessions".data, [], "a".data⟩ ⟨"read_session".data, [], "b".data⟩
      ⟨"post_to_codeblog".data, [], "c".data⟩ ⟨"browse_posts".data, [], "d".data⟩
      ⟨"read_post".data, [], "e".data⟩
      (fun i => ⟨[StreamEvent.line ⟨some (2 + (i : Int)),
          (if i = 2 then some [("message".data, JValue.str "no session".data)] else none),
          some (JValue.obj [])⟩], none, "s".data, "e".data, 1, "u".data⟩)
      {} 2 (JValue.str "no session".data) (by rfl)).2.1

/-- C3 counterexample: a 2-operation pass whose first tool call fails with
the process-exited error still attempts the second operation — the second
record is a pass produced from its own stream events — so the remainder of
the pass is not skipped: the broad `except Exception` at lines 407-414
catches the process-exited `RuntimeError` like any other failure. -/
theorem process_exit_does_not_abort_pass_counterexample :
    (runPass
        [⟨"scan_sessions".data, [("limit".data, .int 5)], "s1".data⟩,
         ⟨"browse_posts".data, [("limit".data, .int 5)], "s2".data⟩]
        (fun i => if i = 0 then
            ⟨[StreamEvent.procExit "boom".data 1], none, "t0".data, "t1".data, 5, "u0".data⟩
          else
            ⟨[StreamEvent.line ⟨some 3, none, some (JValue.obj [])⟩], none,
              "t2".data, "t3".data, 6, "u1".data⟩)
        {} 2).map (fun r => (r.tool, r.passed, r.errorMsg))
      = [("scan_sessions".data, false, "boom".data),
         ("browse_posts".data, true, [])] := rfl

/-- C3 amended: every per-operation failure, including the process-exited
error of a tool call, is caught by the scenario runner and recorded; the
runner continues with the remaining descriptors, still yielding one record
per descriptor in catalog order, and the failing step leaves the context
unchanged. -/
theorem runner_continues_after_process_exit
    (cat : List OpDesc) (envs : Nat → StepEnv) (ctx : Context) (reqId : Int)
    (i : Nat) (hi : i < cat.length) (msg : List Char)
    (hexit : rpc (reqId + i) (cat.get ⟨i, hi⟩).name 90 (envs i).events
      = RpcOutcome.processExited msg) :
    (runPass cat envs ctx reqId).map Record.tool = cat.map OpDesc.name
    ∧ ∃ r, (runPass cat envs ctx reqId).get? i = some r
        ∧ r.tool = (cat.get ⟨i, hi⟩).name ∧ r.passed = false ∧ r.errorMsg = msg := by
  refine ⟨runPassAux_map_tool cat envs 0 ctx reqId, ?_⟩
  obtain ⟨c, hc⟩ := runPassAux_get cat envs 0 ctx reqId i hi
  have hz : (0 : Nat) + i = i := Nat.zero_add i
  rw [hz] at hc
  exact ⟨(runStep (cat.get ⟨i, hi⟩) (envs i) c (reqId + i)).1, hc,
    runStep_tool _ _ _ _,
    (runStep_processExited (cat.get ⟨i, hi⟩) (envs i) c (reqId + i) msg hexit).1,
    (runStep_processExited (cat.get ⟨i, hi⟩) (envs i) c (reqId + i) msg hexit).2.1⟩

theorem runner_continues_after_process_exit_witness :
    (0 : Nat) < ([⟨"scan_sessions".data, [], "s1".data⟩,
        ⟨"browse_posts".data, [], "s2".data⟩] : List OpDesc).length
    ∧ rpc ((2 : Int) + (0 : Nat)) "scan_sessions".data 90
        [StreamEvent.procExit "boom".data 1] = RpcOutcome.processExited "boom".data
    ∧ ∃ r, (runPass
        [⟨"scan_sessions".data, [], "s1".data⟩, ⟨"browse_posts".data, [], "s2".data⟩]
        (fun i => if i = 0 then
            ⟨[StreamEvent.procExit "boom".data 1], none, "t0".data, "t1".data, 5, "u0".data⟩
          else
            ⟨[StreamEvent.line ⟨some 3, none, some (JValue.obj [])⟩], none,
              "t2".data, "t3".data, 6, "u1".data⟩)
        {} 2).get? 0 = some r ∧ r.tool = "scan_sessions".data
        ∧ r.passed = false ∧ r.errorMsg = "boom".data := by
  refine ⟨by decide, rfl, ?_⟩
  have h := (runner_continues_after_process_exit
    [⟨"scan_sessions".data, [], "s1".data⟩, ⟨"browse_posts".data, [], "s2".data⟩]
    (fun i => if i = 0 then
        ⟨[StreamEvent.procExit "boom".data 1], none, "t0".data, "t1".data, 5, "u0".data⟩
      else
        ⟨[StreamEvent.line ⟨some 3, none, some (JValue.obj [])⟩], none,
          "t2".data, "t3".data, 6, "u1".data⟩)
    {} 2 0 (by decide) "boom".data rfl).2
  exact h

end McpLongRunner
